import Mathlib

/-
Verification of the PCA9685 drive code (test.py / drivebase.py).

The register-level helpers of test.py and the Motor / XDrive layer of
drivebase.py are embedded as pure Lean functions producing traces of
register writes and channel-level calls.  Python floats are modelled by
exact rationals plus a NaN value whose comparisons are all false, as in
IEEE 754; Python's `int()` truncation toward zero is `intTrunc`.
-/

/- Register addresses and MODE1 bits from test.py. -/

def MODE1 : ℕ := 0x00

def MODE2 : ℕ := 0x01

def LED0_ON_L : ℕ := 0x06

def PRE_SCALE : ℕ := 0xFE

def RESTART : ℕ := 0x80

def SLEEP : ℕ := 0x10

def AI : ℕ := 0x20

/-- Python `int()` on an exact rational: truncation toward zero. -/
def intTrunc (q : ℚ) : ℤ := if 0 ≤ q then ⌊q⌋ else ⌈q⌉

/-- One byte written to one device register over the bus. -/
structure RegWrite where
  reg : ℕ
  val : ℕ
  deriving DecidableEq

/-- Register writes performed by test.py `set_channel_pwm ch duty`:
clamp the duty to 0..4095, then write the channel's 4-register block,
with the full-off / full-on special encodings at the two extremes. -/
def set_channel_pwm (ch : ℕ) (duty : ℤ) : List RegWrite :=
  let d : ℤ := max 0 (min 4095 duty)
  let base : ℕ := LED0_ON_L + 4 * ch
  if d ≤ 0 then
    [⟨base, 0⟩, ⟨base + 1, 0⟩, ⟨base + 2, 0⟩, ⟨base + 3, 0x10⟩]
  else if 4095 ≤ d then
    [⟨base, 0⟩, ⟨base + 1, 0x10⟩, ⟨base + 2, 0⟩, ⟨base + 3, 0⟩]
  else
    [⟨base, 0 &&& 0xFF⟩, ⟨base + 1, (0 >>> 8) &&& 0x0F⟩,
     ⟨base + 2, d.toNat &&& 0xFF⟩, ⟨base + 3, (d.toNat >>> 8) &&& 0x0F⟩]

/-- test.py `set_channel_digital ch high`. -/
def set_channel_digital (ch : ℕ) (high : Bool) : List RegWrite :=
  set_channel_pwm ch (if high then 4095 else 0)

/-- A Python float as the motor code sees it: NaN or an exact rational.
(Rounding of binary floats is not exercised by the proved statements;
NaN propagation and comparison semantics are.) -/
inductive PFloat where
  | nan : PFloat
  | num : ℚ → PFloat
  deriving DecidableEq

/-- Multiplication by -1 (`cmd * -1`): NaN stays NaN. -/
def PFloat.neg' : PFloat → PFloat
  | .nan => .nan
  | .num q => .num (-q)

/-- Python `x >= 0`: false for NaN. -/
def PFloat.ge0 : PFloat → Bool
  | .nan => false
  | .num q => decide (0 ≤ q)

/-- Python `abs`: NaN stays NaN. -/
def PFloat.abs' : PFloat → PFloat
  | .nan => .nan
  | .num q => .num |q|

/-- Python `x <= b` for a rational bound b: false for NaN. -/
def PFloat.leQ : PFloat → ℚ → Bool
  | .nan, _ => false
  | .num q, b => decide (q ≤ b)

/-- Python `min(a, x)` with a rational first argument: returns x when
`x < a`, otherwise a; in particular `min(a, NaN) = a` because the
comparison `NaN < a` is false. -/
def pymin (a : ℚ) : PFloat → ℚ
  | .nan => a
  | .num q => if q < a then q else a

/-- drivebase.py `Motor`: one PWM channel, one direction channel,
polarity, safety cap and deadband (integer fields of the source,
carried as exact rationals / integers). -/
structure Motor where
  pwm_ch : ℕ
  dir_ch : ℕ
  direction : ℤ := 1
  max_percent : ℚ := 40
  deadband : ℚ := 2
  deriving DecidableEq

/-- One channel-level call into the test.py helpers. -/
inductive LLCall where
  | digital : ℕ → Bool → LLCall
  | pwm : ℕ → ℤ → LLCall
  deriving DecidableEq

/-- The channel an LLCall addresses. -/
def LLCall.chOf : LLCall → ℕ
  | .digital ch _ => ch
  | .pwm ch _ => ch

/-- Register writes a channel-level call expands to. -/
def LLCall.lower : LLCall → List RegWrite
  | .digital ch high => set_channel_digital ch high
  | .pwm ch d => set_channel_pwm ch d

/-- drivebase.py `Motor.set_power`, as the trace of channel-level calls
it performs.  `float(power)` succeeds for every float (including NaN);
then: apply polarity, write the direction bit, and either stop inside
the deadband or write the capped duty `int(magnitude / 100 * 4095)`. -/
def Motor.set_power (m : Motor) (power : PFloat) : List LLCall :=
  let effective := if 0 ≤ m.direction then power else power.neg'
  let forward := effective.ge0
  let magnitude := effective.abs'
  if magnitude.leQ m.deadband then
    [.digital m.dir_ch forward, .pwm m.pwm_ch 0]
  else
    let mag2 := pymin m.max_percent magnitude
    [.digital m.dir_ch forward, .pwm m.pwm_ch (intTrunc (mag2 / 100 * 4095))]

/-- The duty values written by `.pwm` calls addressed to channel ch. -/
def pwmDutiesTo (ch : ℕ) (t : List LLCall) : List ℤ :=
  t.filterMap fun c =>
    match c with
    | .pwm c' d => if c' = ch then some d else none
    | .digital _ _ => none

/-- drivebase.py `XDrive`: the four named motors. -/
structure XDrive where
  BackLeft : Motor
  FrontLeft : Motor
  BackRight : Motor
  FrontRight : Motor

/-- The XDrive built by drivebase.py's constructor with default
polarities and the fixed channel mapping. -/
def XDrive.std : XDrive where
  BackLeft := { pwm_ch := 1, dir_ch := 3, direction := 1 }
  FrontLeft := { pwm_ch := 0, dir_ch := 2, direction := 1 }
  BackRight := { pwm_ch := 14, dir_ch := 13, direction := -1 }
  FrontRight := { pwm_ch := 15, dir_ch := 12, direction := -1 }

/-- drivebase.py `XDrive.setPower`: the four motors are commanded
sequentially in the fixed order BackLeft, FrontLeft, BackRight,
FrontRight; the trace is the concatenation of the per-motor traces. -/
def XDrive.setPower (xd : XDrive) (bl fl br fr : PFloat) : List LLCall :=
  xd.BackLeft.set_power bl ++ xd.FrontLeft.set_power fl ++
    xd.BackRight.set_power br ++ xd.FrontRight.set_power fr

/-- drivebase.py `XDrive.drive`: the kinematic mix, then setPower. -/
def XDrive.drive (xd : XDrive) (x y h : ℚ) : List LLCall :=
  let bl := y - x - h
  let fl := y + x + h
  let br := y + x - h
  let fr := y - x + h
  xd.setPower (.num bl) (.num fl) (.num br) (.num fr)

/-- A step of straight-line Python control flow: a bare channel call
(an exception propagates), or one wrapped in `try: ... except: pass`. -/
inductive Step where
  | call : LLCall → Step
  | guarded : LLCall → Step
  deriving DecidableEq

/-- Exception semantics for a step list under an injected per-call
failure predicate: a failing bare call stops execution and reports a
raised exception; a guarded call is always attempted and its failure is
swallowed.  Returns (attempted calls, whether an exception escaped). -/
def runSteps (failOn : LLCall → Bool) : List Step → List LLCall × Bool
  | [] => ([], false)
  | .call c :: rest =>
    if failOn c then ([c], true)
    else
      let r := runSteps failOn rest
      (c :: r.1, r.2)
  | .guarded c :: rest =>
    let r := runSteps failOn rest
    (c :: r.1, r.2)

/-- drivebase.py `XDrive.cleanup` as a step list: zero the PWM duty on
all 16 channels, then drive direction channels 2, 3, 12, 13 low, each
call inside its own `try: ... except Exception: pass`. -/
def XDrive.cleanup_steps : List Step :=
  ((List.range 16).map fun ch => .guarded (.pwm ch 0)) ++
    (([2, 3, 12, 13] : List ℕ).map fun ch => .guarded (.digital ch false))

/-- test.py `set_pwm_freq` prescaler value:
`int(25000000.0 / (4096.0 * freq) - 1.0 + 0.5)`, in exact rationals. -/
def prescale (freq_hz : ℕ) : ℤ :=
  intTrunc (25000000 / (4096 * (freq_hz : ℚ)) - 1 + 1 / 2)

/-- One bus-level operation of `set_pwm_freq`. -/
inductive BusOp where
  | readReg : ℕ → BusOp
  | writeReg : ℕ → ℤ → BusOp
  | sleepMs : ℚ → BusOp
  deriving DecidableEq

/-- test.py `set_pwm_freq`, as its bus-operation trace, parametrised by
the MODE1 byte read back from the device (a byte, so the Python masks
`& ~RESTART` and `& ~SLEEP` on it are `&&& 0x7F` and `&&& 0xEF`). -/
def set_pwm_freq (freq_hz : ℕ) (oldmode : ℕ) : List BusOp :=
  [.readReg MODE1,
   .writeReg MODE1 (((oldmode &&& 0x7F) ||| SLEEP ||| AI : ℕ) : ℤ),
   .writeReg PRE_SCALE (prescale freq_hz),
   .writeReg MODE1 (((oldmode &&& 0xEF) ||| AI : ℕ) : ℤ),
   .sleepMs 5,
   .writeReg MODE1 ((((oldmode &&& 0xEF) ||| RESTART ||| AI) &&& 0xFF : ℕ) : ℤ)]

/- Claim theorems. -/

/-- C1 (counterexample): a Motor with polarity -1 on `setPower(50)` and
an otherwise identical Motor with polarity +1 on `setPower(-50)` write
the SAME direction bit (both false), not opposite ones: both compute
`effective = -50`.  The duty (1638) is indeed the same. -/
theorem polarity_inversion_cex :
    (⟨0, 2, -1, 40, 2⟩ : Motor).set_power (.num 50) =
      [.digital 2 false, .pwm 0 1638] ∧
    (⟨0, 2, 1, 40, 2⟩ : Motor).set_power (.num (-50)) =
      [.digital 2 false, .pwm 0 1638] := by
  norm_num [Motor.set_power, PFloat.neg', PFloat.ge0, PFloat.abs',
    PFloat.leQ, pymin, intTrunc]

/-- C1 (amended): for any two Motors identical except for polarity, the
polarity -1 motor on `setPower(p)` produces exactly the same low-level
trace — same PWM duty and the SAME direction bit — as the polarity +1
motor on `setPower(-p)`. -/
theorem polarity_inversion_amended (m : Motor) (p : ℚ) :
    ({ m with direction := -1 } : Motor).set_power (.num p) =
      ({ m with direction := 1 } : Motor).set_power (.num (-p)) := by
  rfl

/-- C9 (confirmed): `XDrive.drive x y h` passes the per-wheel commands
backLeft = y - x - h, frontLeft = y + x + h, backRight = y + x - h,
frontRight = y - x + h to setPower; drive(0,0,0) commands all four
wheels 0 and drive(100,0,0) commands (-100, 100, 100, -100). -/
theorem drive_mix (xd : XDrive) (x y h : ℚ) :
    xd.drive x y h =
      xd.setPower (.num (y - x - h)) (.num (y + x + h))
        (.num (y + x - h)) (.num (y - x + h)) ∧
    XDrive.std.drive 0 0 0 =
      XDrive.std.setPower (.num 0) (.num 0) (.num 0) (.num 0) ∧
    XDrive.std.drive 100 0 0 =
      XDrive.std.setPower (.num (-100)) (.num 100) (.num 100) (.num (-100)) := by
  refine ⟨rfl, by norm_num [XDrive.drive], by norm_num [XDrive.drive]⟩

/-- C10 (confirmed): `Motor.set_power NaN` raises no error: NaN survives
`float()`, every NaN comparison is false, so the direction bit is false
(reverse, a full-off write on the direction channel), the deadband
branch is skipped, `min(max_percent, NaN)` yields max_percent, and the
written duty is `int(max_percent / 100 * 4095)` — 1638 at the default
cap of 40. -/
theorem set_power_nan_reverse_full_cap (m : Motor) :
    m.set_power .nan =
      [.digital m.dir_ch false,
       .pwm m.pwm_ch (intTrunc (m.max_percent / 100 * 4095))] ∧
    LLCall.lower (.digital m.dir_ch false) =
      [⟨LED0_ON_L + 4 * m.dir_ch, 0⟩, ⟨LED0_ON_L + 4 * m.dir_ch + 1, 0⟩,
       ⟨LED0_ON_L + 4 * m.dir_ch + 2, 0⟩, ⟨LED0_ON_L + 4 * m.dir_ch + 3, 0x10⟩] ∧
    intTrunc ((40 : ℚ) / 100 * 4095) = 1638 := by
  refine ⟨?_, ?_, by norm_num [intTrunc]⟩
  · by_cases hd : 0 ≤ m.direction <;>
      simp [Motor.set_power, hd, PFloat.neg', PFloat.ge0, PFloat.abs',
        PFloat.leQ, pymin]
  · simp [LLCall.lower, set_channel_digital, set_channel_pwm]

/- Bitwise helpers for the byte-splitting of the generic encoding. -/

lemma low_byte (n : ℕ) : n &&& 0xFF = n % 256 := by
  simpa using Nat.and_pow_two_sub_one_eq_mod n 8

lemma high_nibble (n : ℕ) (h : n < 4096) : (n >>> 8) &&& 0x0F = n / 256 := by
  have h1 : n >>> 8 = n / 256 := by simpa using Nat.shiftRight_eq_div_pow n 8
  have h2 : (n >>> 8) &&& 0x0F = (n >>> 8) % 16 := by
    simpa using Nat.and_pow_two_sub_one_eq_mod (n >>> 8) 4
  rw [h2, h1, Nat.mod_eq_of_lt]
  omega

/-- C4 (counterexample): channel 16 is outside the valid range 0..15,
yet `set_channel_pwm 16 2000` performs its four register writes (at
registers 0x46..0x49, past the last channel block) instead of failing:
the code has no channel validation and no error path. -/
theorem set_channel_pwm_ch16_writes :
    set_channel_pwm 16 2000 =
      [⟨0x46, 0⟩, ⟨0x47, 0⟩, ⟨0x48, 0xD0⟩, ⟨0x49, 0x07⟩] := by decide

/-- C4 (amended): the per-channel operations perform no channel
validation at all: for EVERY channel argument (in range or not) they
write exactly the 4-register block at base `LED0_ON_L + 4 * ch` and
never fail. -/
theorem set_channel_pwm_no_validation (ch : ℕ) (duty : ℤ) :
    (set_channel_pwm ch duty).map RegWrite.reg =
      [LED0_ON_L + 4 * ch, LED0_ON_L + 4 * ch + 1,
       LED0_ON_L + 4 * ch + 2, LED0_ON_L + 4 * ch + 3] ∧
    ∀ high : Bool, (set_channel_digital ch high).map RegWrite.reg =
      [LED0_ON_L + 4 * ch, LED0_ON_L + 4 * ch + 1,
       LED0_ON_L + 4 * ch + 2, LED0_ON_L + 4 * ch + 3] := by
  constructor
  · simp only [set_channel_pwm]
    split_ifs <;> simp
  · intro high
    simp only [set_channel_digital, set_channel_pwm]
    split_ifs <;> simp

/-- C5 (confirmed): for a valid channel, duty ≤ 0 writes the full-off
encoding (off-high byte 0x10, other three registers 0), duty ≥ 4095
writes the full-on encoding (on-high byte 0x10, other three 0), and a
strictly intermediate duty writes on = 0 and off split into its low
byte and high nibble — so the two extremes never get the generic pair
encoding. -/
theorem set_channel_pwm_encodings (ch : ℕ) (duty : ℤ) (_hch : ch < 16) :
    (duty ≤ 0 → set_channel_pwm ch duty =
      [⟨LED0_ON_L + 4 * ch, 0⟩, ⟨LED0_ON_L + 4 * ch + 1, 0⟩,
       ⟨LED0_ON_L + 4 * ch + 2, 0⟩, ⟨LED0_ON_L + 4 * ch + 3, 0x10⟩]) ∧
    (4095 ≤ duty → set_channel_pwm ch duty =
      [⟨LED0_ON_L + 4 * ch, 0⟩, ⟨LED0_ON_L + 4 * ch + 1, 0x10⟩,
       ⟨LED0_ON_L + 4 * ch + 2, 0⟩, ⟨LED0_ON_L + 4 * ch + 3, 0⟩]) ∧
    (0 < duty → duty < 4095 → set_channel_pwm ch duty =
      [⟨LED0_ON_L + 4 * ch, 0⟩, ⟨LED0_ON_L + 4 * ch + 1, 0⟩,
       ⟨LED0_ON_L + 4 * ch + 2, duty.toNat % 256⟩,
       ⟨LED0_ON_L + 4 * ch + 3, duty.toNat / 256⟩]) := by
  refine ⟨?_, ?_, ?_⟩
  · intro h
    have hd : max (0 : ℤ) (min 4095 duty) = 0 := by omega
    simp [set_channel_pwm, hd]
  · intro h
    have hd : max (0 : ℤ) (min 4095 duty) = 4095 := by omega
    simp [set_channel_pwm, hd]
  · intro h1 h2
    have hd : max (0 : ℤ) (min 4095 duty) = duty := by omega
    have hn : duty.toNat < 4096 := by omega
    have hle : ¬ duty ≤ 0 := by omega
    have hge : ¬ (4095 : ℤ) ≤ duty := by omega
    simp [set_channel_pwm, hd, hle, hge, low_byte, high_nibble _ hn]

/-- Witness for C5 at channel 5 and duty 1000. -/
theorem set_channel_pwm_encodings_witness :
    5 < 16 ∧
    (((1000 : ℤ) ≤ 0 → set_channel_pwm 5 1000 =
      [⟨26, 0⟩, ⟨27, 0⟩, ⟨28, 0⟩, ⟨29, 0x10⟩]) ∧
    ((4095 : ℤ) ≤ 1000 → set_channel_pwm 5 1000 =
      [⟨26, 0⟩, ⟨27, 0x10⟩, ⟨28, 0⟩, ⟨29, 0⟩]) ∧
    ((0 : ℤ) < 1000 → (1000 : ℤ) < 4095 → set_channel_pwm 5 1000 =
      [⟨26, 0⟩, ⟨27, 0⟩, ⟨28, (1000 : ℤ).toNat % 256⟩,
       ⟨29, (1000 : ℤ).toNat / 256⟩])) :=
  ⟨by decide, set_channel_pwm_encodings 5 1000 (by decide)⟩

/-- C8 (confirmed): under ANY injected per-call failure pattern,
`XDrive.cleanup` attempts all 16 PWM-zero calls and then drives all
four known direction channels (2, 3, 12, 13) low, and no exception
escapes: every call is individually guarded, so the raised flag is
always false. -/
theorem cleanup_attempts_all_never_raises (failOn : LLCall → Bool) :
    runSteps failOn XDrive.cleanup_steps =
      (((List.range 16).map fun ch => LLCall.pwm ch 0) ++
        (([2, 3, 12, 13] : List ℕ).map fun ch => LLCall.digital ch false),
       false) := by
  rfl

/-- If some call in the leading segment fails, execution raises and the
attempted calls all come from that leading segment. -/
lemma runSteps_call_of_fail (failOn : LLCall → Bool) :
    ∀ a b : List LLCall, (∃ c ∈ a, failOn c = true) →
      (runSteps failOn (a.map .call ++ b.map .call)).2 = true ∧
      ∀ c ∈ (runSteps failOn (a.map .call ++ b.map .call)).1, c ∈ a := by
  intro a
  induction a with
  | nil => intro b h; simp at h
  | cons c a' ih =>
    intro b h
    by_cases hc : failOn c
    · refine ⟨by simp [runSteps, hc], ?_⟩
      intro x hx
      simp [runSteps, hc] at hx
      simp [hx]
    · have h' : ∃ d ∈ a', failOn d = true := by
        rcases h with ⟨d, hd, hdf⟩
        rcases List.mem_cons.mp hd with rfl | hd'
        · exact absurd hdf (by simp [hc])
        · exact ⟨d, hd', hdf⟩
      refine ⟨by simp [runSteps, hc, (ih b h').1], ?_⟩
      intro x hx
      simp only [List.map_cons, List.cons_append, runSteps, hc,
        if_false, Bool.false_eq_true] at hx
      rcases List.mem_cons.mp hx with rfl | hx'
      · exact List.mem_cons_self _ _
      · exact List.mem_cons_of_mem _ ((ih b h').2 x hx')

/-- C3 (counterexample): with a bus failure injected on channel 3 (the
BackLeft direction channel), commanding all four motors at power 50
attempts only the first BackLeft call and then raises: the FrontLeft,
BackRight and FrontRight motors are never attempted — e.g. the
FrontLeft direction write on channel 2, present in the failure-free
run, is absent. -/
theorem setPower_abort_cex :
    runSteps (fun c => c.chOf == 3)
        ((XDrive.std.setPower (.num 50) (.num 50) (.num 50) (.num 50)).map .call) =
      ([.digital 3 true], true) ∧
    .digital 2 true ∈
      (runSteps (fun _ => false)
        ((XDrive.std.setPower (.num 50) (.num 50) (.num 50) (.num 50)).map .call)).1 := by
  constructor <;> decide

/-- C3 (amended): `XDrive.setPower` commands the motors in the fixed
order BackLeft, FrontLeft, BackRight, FrontRight, but the calls are NOT
isolated: when a call of the BackLeft motor fails, the exception
propagates (raised = true) and every attempted call belongs to the
BackLeft trace — the remaining three motors are never attempted. -/
theorem setPower_order_and_abort (xd : XDrive) (bl fl br fr : PFloat)
    (failOn : LLCall → Bool)
    (h : ∃ c ∈ xd.BackLeft.set_power bl, failOn c = true) :
    xd.setPower bl fl br fr =
      xd.BackLeft.set_power bl ++ (xd.FrontLeft.set_power fl ++
        (xd.BackRight.set_power br ++ xd.FrontRight.set_power fr)) ∧
    (runSteps failOn ((xd.setPower bl fl br fr).map .call)).2 = true ∧
    ∀ c ∈ (runSteps failOn ((xd.setPower bl fl br fr).map .call)).1,
      c ∈ xd.BackLeft.set_power bl := by
  have hassoc : xd.setPower bl fl br fr =
      xd.BackLeft.set_power bl ++ (xd.FrontLeft.set_power fl ++
        (xd.BackRight.set_power br ++ xd.FrontRight.set_power fr)) := by
    simp [XDrive.setPower]
  have key := runSteps_call_of_fail failOn (xd.BackLeft.set_power bl)
    (xd.FrontLeft.set_power fl ++
      (xd.BackRight.set_power br ++ xd.FrontRight.set_power fr)) h
  rw [hassoc, List.map_append]
  exact ⟨rfl, key.1, key.2⟩

/-- Witness for C3's amended theorem: the standard XDrive at power 50
with failures injected on channel 3. -/
theorem setPower_order_and_abort_witness :
    (∃ c ∈ XDrive.std.BackLeft.set_power (.num 50), (c.chOf == 3) = true) ∧
    (runSteps (fun c => c.chOf == 3)
        ((XDrive.std.setPower (.num 50) (.num 50) (.num 50) (.num 50)).map
          .call)).2 = true :=
  ⟨by decide,
   (setPower_order_and_abort XDrive.std (.num 50) (.num 50) (.num 50) (.num 50)
      (fun c => c.chOf == 3) (by decide)).2.1⟩

/-- Python `min(a, q)` on an actual rational agrees with `min`. -/
lemma pymin_num (a q : ℚ) : pymin a (.num q) = min a q := by
  show (if q < a then q else a) = min a q
  split_ifs with h
  · exact (min_eq_right h.le).symm
  · exact (min_eq_left (le_of_not_lt h)).symm

/-- The single duty value `Motor.set_power` writes to the PWM channel
on a rational command. -/
lemma set_power_num_duties (m : Motor) (p : ℚ) :
    pwmDutiesTo m.pwm_ch (m.set_power (.num p)) =
      [if |p| ≤ m.deadband then 0
       else intTrunc (min m.max_percent |p| / 100 * 4095)] := by
  by_cases hd : 0 ≤ m.direction <;> by_cases hdb : |p| ≤ m.deadband <;>
    simp [Motor.set_power, hd, hdb, PFloat.neg', PFloat.ge0, PFloat.abs',
      PFloat.leQ, pymin_num, pwmDutiesTo, abs_neg]

/-- C2 (counterexample): the default Motor (deadband 2, cap 40) at
power 3 writes duty 122 = int(3/100*4095) = ⌊122.85⌋, while the claimed
formula round(min(40, |3|)/100 × 4095) = round(122.85) = 123: the code
truncates, it does not round. -/
theorem set_power_round_cex :
    pwmDutiesTo 0 ((⟨0, 2, 1, 40, 2⟩ : Motor).set_power (.num 3)) = [122] ∧
    round (min (40 : ℚ) |(3 : ℚ)| / 100 * 4095) = 123 ∧
    (122 : ℤ) ≠ 123 := by
  refine ⟨?_, ?_, by decide⟩
  · norm_num [Motor.set_power, PFloat.ge0, PFloat.abs', PFloat.leQ,
      pymin, pwmDutiesTo, intTrunc]
    decide
  · norm_num [round_eq]

/-- C2 (amended): on every rational power, `Motor.set_power` writes
exactly one duty value to the PWM channel: 0 when |power| ≤ deadband,
and otherwise ⌊min(max_percent, |power|) / 100 × 4095⌋ (Python `int()`
truncation, NOT rounding); above the deadband the duty is monotonically
non-decreasing in |power|. -/
theorem set_power_duty_floor (m : Motor) (p q : ℚ)
    (hmax : 0 ≤ m.max_percent) :
    (pwmDutiesTo m.pwm_ch (m.set_power (.num p))).length = 1 ∧
    (|p| ≤ m.deadband → pwmDutiesTo m.pwm_ch (m.set_power (.num p)) = [0]) ∧
    (m.deadband < |p| →
      pwmDutiesTo m.pwm_ch (m.set_power (.num p)) =
        [⌊min m.max_percent |p| / 100 * 4095⌋]) ∧
    (m.deadband < |p| → |p| ≤ |q| →
      (pwmDutiesTo m.pwm_ch (m.set_power (.num p))).headI ≤
        (pwmDutiesTo m.pwm_ch (m.set_power (.num q))).headI) := by
  refine ⟨?_, ?_, ?_, ?_⟩
  · rw [set_power_num_duties]
    rfl
  · intro h
    rw [set_power_num_duties, if_pos h]
  · intro h
    rw [set_power_num_duties, if_neg (not_le.mpr h)]
    have hmin : (0 : ℚ) ≤ min m.max_percent |p| :=
      le_min hmax (abs_nonneg p)
    have h0 : (0 : ℚ) ≤ min m.max_percent |p| / 100 * 4095 := by positivity
    simp [intTrunc, h0]
  · intro h1 h2
    have h1q : m.deadband < |q| := lt_of_lt_of_le h1 h2
    rw [set_power_num_duties, set_power_num_duties,
      if_neg (not_le.mpr h1), if_neg (not_le.mpr h1q)]
    have hminp : (0 : ℚ) ≤ min m.max_percent |p| :=
      le_min hmax (abs_nonneg p)
    have hminq : (0 : ℚ) ≤ min m.max_percent |q| :=
      le_min hmax (abs_nonneg q)
    have e1 : (0 : ℚ) ≤ min m.max_percent |p| / 100 * 4095 := by positivity
    have e2 : (0 : ℚ) ≤ min m.max_percent |q| / 100 * 4095 := by positivity
    simp only [List.headI, intTrunc, if_pos e1, if_pos e2]
    gcongr

/-- Witness for C2's amended theorem: the default Motor at powers 3
and 5. -/
theorem set_power_duty_floor_witness :
    (0 : ℚ) ≤ (⟨0, 2, 1, 40, 2⟩ : Motor).max_percent ∧
    ((pwmDutiesTo 0 ((⟨0, 2, 1, 40, 2⟩ : Motor).set_power (.num 3))).length = 1 ∧
     (|(3 : ℚ)| ≤ 2 →
       pwmDutiesTo 0 ((⟨0, 2, 1, 40, 2⟩ : Motor).set_power (.num 3)) = [0]) ∧
     ((2 : ℚ) < |(3 : ℚ)| →
       pwmDutiesTo 0 ((⟨0, 2, 1, 40, 2⟩ : Motor).set_power (.num 3)) =
         [⌊min (40 : ℚ) |(3 : ℚ)| / 100 * 4095⌋]) ∧
     ((2 : ℚ) < |(3 : ℚ)| → |(3 : ℚ)| ≤ |(5 : ℚ)| →
       (pwmDutiesTo 0 ((⟨0, 2, 1, 40, 2⟩ : Motor).set_power (.num 3))).headI ≤
         (pwmDutiesTo 0 ((⟨0, 2, 1, 40, 2⟩ : Motor).set_power (.num 5))).headI)) :=
  ⟨by decide, set_power_duty_floor ⟨0, 2, 1, 40, 2⟩ 3 5 (by decide)⟩

/-- C6 (confirmed): over the device's whole usable frequency domain
(the computed value stays nonnegative up to 12207 Hz, far above the
chip's ~1526 Hz ceiling), the prescaler computed by `set_pwm_freq`
equals round(25000000 / (4096 × hz) − 1); in particular
`set_pwm_freq 1000` writes prescaler 5 to the PRESCALE register. -/
theorem prescale_round (hz oldmode : ℕ) (h1 : 0 < hz) (h2 : hz ≤ 12207) :
    prescale hz = round ((25000000 : ℚ) / (4096 * hz) - 1) ∧
    BusOp.writeReg PRE_SCALE 5 ∈ set_pwm_freq 1000 oldmode := by
  constructor
  · have hzq : (0 : ℚ) < hz := by exact_mod_cast h1
    have hq : (hz : ℚ) ≤ 12207 := by exact_mod_cast h2
    have hpos : (0 : ℚ) < 4096 * hz := by positivity
    have hge : (1 : ℚ) / 2 ≤ 25000000 / (4096 * hz) := by
      rw [div_le_div_iff₀ (by norm_num) hpos]
      nlinarith
    have h0 : (0 : ℚ) ≤ 25000000 / (4096 * hz) - 1 + 1 / 2 := by linarith
    unfold prescale intTrunc
    rw [if_pos h0, round_eq]
  · have h5 : prescale 1000 = 5 := by
      norm_num [prescale, intTrunc]
    simp [set_pwm_freq, h5]

/-- Witness for C6 at hz = 1000 and device MODE1 byte 0x11. -/
theorem prescale_round_witness :
    0 < 1000 ∧ 1000 ≤ 12207 ∧
    (prescale 1000 = round ((25000000 : ℚ) / (4096 * (1000 : ℕ)) - 1) ∧
     BusOp.writeReg PRE_SCALE 5 ∈ set_pwm_freq 1000 0x11) :=
  ⟨by decide, by decide, prescale_round 1000 0x11 (by decide) (by decide)⟩

/-- C7 (confirmed): for every frequency and every MODE1 byte read back,
the bus trace of `set_pwm_freq` is exactly: read MODE1, write MODE1
with the SLEEP bit (bit 4) set, write the prescaler, write MODE1 with
SLEEP cleared (wake), wait 5 ms, write MODE1 with RESTART (bit 7) set
and SLEEP still clear — so the only MODE1 write preceding the prescaler
write puts the device to sleep: the prescaler is never written while
the device is awake. -/
theorem set_pwm_freq_order (freq_hz oldmode : ℕ) :
    ∃ vSleep vWake vRestart : ℕ,
      set_pwm_freq freq_hz oldmode =
        [.readReg MODE1, .writeReg MODE1 (vSleep : ℤ),
         .writeReg PRE_SCALE (prescale freq_hz), .writeReg MODE1 (vWake : ℤ),
         .sleepMs 5, .writeReg MODE1 (vRestart : ℤ)] ∧
      vSleep.testBit 4 = true ∧
      vWake.testBit 4 = false ∧
      vRestart.testBit 4 = false ∧
      vRestart.testBit 7 = true := by
  have t127_4 : Nat.testBit 127 4 = true := by decide
  have t16_4 : Nat.testBit 16 4 = true := by decide
  have t32_4 : Nat.testBit 32 4 = false := by decide
  have t239_4 : Nat.testBit 239 4 = false := by decide
  have t128_4 : Nat.testBit 128 4 = false := by decide
  have t255_4 : Nat.testBit 255 4 = true := by decide
  have t239_7 : Nat.testBit 239 7 = true := by decide
  have t128_7 : Nat.testBit 128 7 = true := by decide
  have t32_7 : Nat.testBit 32 7 = false := by decide
  have t255_7 : Nat.testBit 255 7 = true := by decide
  refine ⟨(oldmode &&& 0x7F) ||| SLEEP ||| AI, (oldmode &&& 0xEF) ||| AI,
    ((oldmode &&& 0xEF) ||| RESTART ||| AI) &&& 0xFF, rfl, ?_, ?_, ?_, ?_⟩ <;>
    simp [SLEEP, AI, RESTART, Nat.testBit_or, Nat.testBit_and,
      t127_4, t16_4, t32_4, t239_4, t128_4, t255_4, t239_7, t128_7,
      t32_7, t255_7]
